import Mathlib

/-!
Verification of the elitetracker-api backend: a shallow embedding of the
focus-time controller (store / index / metricsByMonth), the auth controller
(authCallback), and the record-store gateway, together with theorems about
the behaviour of those handlers.

Timestamps are modelled by their calendar components; chronological
comparison of valid timestamps coincides with lexicographic comparison of
the component list, which is exactly how the `dayjs` comparisons and the
store's range queries behave on real date values.
-/

namespace EliteTracker

/-- Boolean strict lexicographic order on lists of naturals.  A shorter list
that is a prefix of a longer one compares strictly below it. -/
def lexLt : List Nat → List Nat → Bool
  | [], [] => false
  | [], _ :: _ => true
  | _ :: _, [] => false
  | a :: as, b :: bs => if a < b then true else if b < a then false else lexLt as bs

/-- Boolean lexicographic `less than or equal`, defined as the negation of the
reversed strict comparison. -/
def lexLe (xs ys : List Nat) : Bool := !(lexLt ys xs)

theorem lexLt_irrefl : ∀ l : List Nat, lexLt l l = false
  | [] => rfl
  | a :: as => by simp [lexLt, lexLt_irrefl as]

theorem lexLt_asymm : ∀ {a b : List Nat}, lexLt a b = true → lexLt b a = false
  | [], [], h => by simp [lexLt] at h
  | [], _ :: _, _ => rfl
  | _ :: _, [], h => by simp [lexLt] at h
  | x :: xs, y :: ys, h => by
      by_cases hxy : x < y
      · simp [lexLt, Nat.lt_asymm hxy, hxy]
      · by_cases hyx : y < x
        · simp [lexLt, hxy, hyx] at h
        · have hx : lexLt xs ys = true := by simpa [lexLt, hxy, hyx] using h
          simp [lexLt, hxy, hyx, lexLt_asymm hx]

theorem lexLt_trans : ∀ {a b c : List Nat},
    lexLt a b = true → lexLt b c = true → lexLt a c = true
  | [], [], _, h, _ => by simp [lexLt] at h
  | [], _ :: _, [], _, h => by simp [lexLt] at h
  | [], _ :: _, _ :: _, _, _ => rfl
  | _ :: _, [], _, h, _ => by simp [lexLt] at h
  | _ :: _, _ :: _, [], _, h => by simp [lexLt] at h
  | x :: xs, y :: ys, z :: zs, h₁, h₂ => by
      by_cases hxy : x < y
      · by_cases hyz : y < z
        · simp [lexLt, Nat.lt_trans hxy hyz]
        · by_cases hzy : z < y
          · simp [lexLt, hyz, hzy] at h₂
          · have : y = z := Nat.le_antisymm (Nat.le_of_not_lt hzy) (Nat.le_of_not_lt hyz)
            subst this
            simp [lexLt, hxy]
      · by_cases hyx : y < x
        · simp [lexLt, hxy, hyx] at h₁
        · have hx : x = y := Nat.le_antisymm (Nat.le_of_not_lt hyx) (Nat.le_of_not_lt hxy)
          subst hx
          have h₁' : lexLt xs ys = true := by simpa [lexLt, hxy, hyx] using h₁
          by_cases hyz : x < z
          · simp [lexLt, hyz]
          · by_cases hzy : z < x
            · simp [lexLt, hyz, hzy] at h₂
            · have h₂' : lexLt ys zs = true := by simpa [lexLt, hyz, hzy] using h₂
              simp [lexLt, hyz, hzy, lexLt_trans h₁' h₂']

theorem lexLt_connex : ∀ {a b : List Nat},
    lexLt a b = false → lexLt b a = false → a = b
  | [], [], _, _ => rfl
  | [], _ :: _, h, _ => by simp [lexLt] at h
  | _ :: _, [], _, h => by simp [lexLt] at h
  | x :: xs, y :: ys, h₁, h₂ => by
      by_cases hxy : x < y
      · simp [lexLt, hxy] at h₁
      · by_cases hyx : y < x
        · simp [lexLt, hyx] at h₂
        · have hx : x = y := Nat.le_antisymm (Nat.le_of_not_lt hyx) (Nat.le_of_not_lt hxy)
          subst hx
          have h₁' : lexLt xs ys = false := by simpa [lexLt, hyx] using h₁
          have h₂' : lexLt ys xs = false := by simpa [lexLt, hyx] using h₂
          rw [lexLt_connex h₁' h₂']

theorem lexLe_refl (l : List Nat) : lexLe l l = true := by
  simp [lexLe, lexLt_irrefl]

theorem lexLe_of_lexLt {a b : List Nat} (h : lexLt a b = true) : lexLe a b = true := by
  simp [lexLe, lexLt_asymm h]

theorem lexLe_trans {a b c : List Nat}
    (h₁ : lexLe a b = true) (h₂ : lexLe b c = true) : lexLe a c = true := by
  simp only [lexLe, Bool.not_eq_true'] at h₁ h₂ ⊢
  by_contra hca
  have hca' : lexLt c a = true := by
    cases h : lexLt c a
    · exact absurd h hca
    · rfl
  by_cases hab : lexLt a b = true
  · have := lexLt_trans hca' hab
    simp [this] at h₂
  · have hab' : lexLt a b = false := by
      cases h : lexLt a b
      · rfl
      · exact absurd h hab
    have : a = b := lexLt_connex hab' h₁
    subst this
    simp [hca'] at h₂

theorem lexLe_total (a b : List Nat) : lexLe a b = true ∨ lexLe b a = true := by
  by_cases h : lexLt b a = true
  · right
    simp [lexLe, lexLt_asymm h]
  · left
    simp only [lexLe, Bool.not_eq_true']
    cases hh : lexLt b a
    · rfl
    · exact absurd hh h

theorem lexLe_antisymm {a b : List Nat}
    (h₁ : lexLe a b = true) (h₂ : lexLe b a = true) : a = b := by
  simp only [lexLe, Bool.not_eq_true'] at h₁ h₂
  exact lexLt_connex h₂ h₁

theorem lexLt_of_lexLe_of_ne {a b : List Nat}
    (h : lexLe a b = true) (hne : a ≠ b) : lexLt a b = true := by
  simp only [lexLe, Bool.not_eq_true'] at h
  cases hh : lexLt a b
  · exact absurd (lexLt_connex hh h) hne
  · rfl

/-- A timestamp, modelled by its calendar components (as `dayjs` exposes
them).  `ms` holds the millisecond component. -/
structure DateTime where
  year : Nat
  month : Nat
  day : Nat
  hour : Nat
  minute : Nat
  second : Nat
  ms : Nat
deriving DecidableEq, Repr

/-- Component list of a timestamp, most significant first; chronological
order of timestamps is lexicographic order of these lists. -/
def DateTime.toList (t : DateTime) : List Nat :=
  [t.year, t.month, t.day, t.hour, t.minute, t.second, t.ms]

/-- Embedding of `dayjs(a).isBefore(b)`: strict chronological comparison. -/
def DateTime.isBefore (a b : DateTime) : Bool := lexLt a.toList b.toList

/-- Chronological `less than or equal` on timestamps; this is the comparison
the store's range queries perform. -/
def dtLe (a b : DateTime) : Bool := lexLe a.toList b.toList

theorem DateTime.toList_inj {a b : DateTime} (h : a.toList = b.toList) : a = b := by
  cases a
  cases b
  simpa [DateTime.toList] using h

/-- Embedding of `dayjs(d).startOf("day")`: time-of-day components zeroed. -/
def startOfDay (t : DateTime) : DateTime :=
  ⟨t.year, t.month, t.day, 0, 0, 0, 0⟩

/-- Embedding of `dayjs(d).endOf("day")`: time-of-day components set to the
last representable instant, 23:59:59.999. -/
def endOfDay (t : DateTime) : DateTime :=
  ⟨t.year, t.month, t.day, 23, 59, 59, 999⟩

/-- Gregorian leap-year rule, as `dayjs` applies it. -/
def isLeapYear (y : Nat) : Bool :=
  (y % 4 == 0 && y % 100 != 0) || y % 400 == 0

/-- Number of days of a Gregorian calendar month. -/
def daysInMonth (y m : Nat) : Nat :=
  if m == 2 then (if isLeapYear y then 29 else 28)
  else if m == 4 || m == 6 || m == 9 || m == 11 then 30
  else 31

/-- Embedding of `dayjs(d).startOf("month")`: first instant of the month. -/
def startOfMonth (t : DateTime) : DateTime :=
  ⟨t.year, t.month, 1, 0, 0, 0, 0⟩

/-- Embedding of `dayjs(d).endOf("month")`: last instant of the month. -/
def endOfMonth (t : DateTime) : DateTime :=
  ⟨t.year, t.month, daysInMonth t.year t.month, 23, 59, 59, 999⟩

/-- A persisted focus-time document (`FocusTimeModel`). -/
structure FocusTimeRecord where
  timeFrom : DateTime
  timeTo : DateTime
  userId : String
deriving DecidableEq, Repr

/-- A raw request value before `zod` coercion: either a value coercible to a
date, or a malformed string. -/
inductive RawValue where
  | date (d : DateTime)
  | malformed (s : String)
deriving DecidableEq, Repr

/-- Embedding of `z.coerce.date()` on one raw value: succeeds exactly on
date-coercible input. -/
def coerceDate : RawValue → Option DateTime
  | .date d => some d
  | .malformed _ => none

/-- One validation issue, naming the offending field. -/
structure Issue where
  field : String
  message : String
deriving DecidableEq, Repr

/-- Modelled from the spec: the `ErrorMessageValidation` helper of
`src/utils/errorMessageValidation` is not under `src/`.  Per the spec's
Input Validator contract, a failed validation yields the ordered list of
field issues, one per failed coercion, each naming the offending field with
a type-mismatch message. -/
def issuesOf (checks : List (String × Option DateTime)) : List Issue :=
  checks.filterMap fun c =>
    match c.2 with
    | none => some ⟨c.1, "Invalid date"⟩
    | some _ => none

/-- Result of parsing the store request body against the schema
`z.object (timeFrom : z.coerce.date, timeTo : z.coerce.date)`. -/
def parseStoreBody (timeFromRaw timeToRaw : RawValue) :
    Except (List Issue) (DateTime × DateTime) :=
  match coerceDate timeFromRaw, coerceDate timeToRaw with
  | some a, some b => .ok (a, b)
  | a?, b? => .error (issuesOf [("timeFrom", a?), ("timeTo", b?)])

/-- Embedding of `FocusTimeModel.create`: appends the new document to the
store and returns it. -/
def FocusTimeModel.create (db : List FocusTimeRecord) (r : FocusTimeRecord) :
    List FocusTimeRecord × FocusTimeRecord :=
  (db ++ [r], r)

/-- Ordering used by `.sort (timeFrom : 1)`: ascending by `timeFrom`. -/
def recordLe (a b : FocusTimeRecord) : Prop :=
  dtLe a.timeFrom b.timeFrom = true

instance : DecidableRel recordLe := fun a b =>
  inferInstanceAs (Decidable (dtLe a.timeFrom b.timeFrom = true))

instance : IsTotal FocusTimeRecord recordLe :=
  ⟨fun a b => lexLe_total a.timeFrom.toList b.timeFrom.toList⟩

instance : IsTrans FocusTimeRecord recordLe :=
  ⟨fun _ _ _ h₁ h₂ => lexLe_trans h₁ h₂⟩

/-- The filter of the store queries: owner matches and `timeFrom` lies in
the inclusive window. -/
def inQuery (userId : String) (s e : DateTime) (r : FocusTimeRecord) : Bool :=
  r.userId == userId && dtLe s r.timeFrom && dtLe r.timeFrom e

/-- Embedding of `FocusTimeModel.find (timeFrom : gte s, lte e, userId)`
followed by `.sort (timeFrom : 1)`. -/
def FocusTimeModel.findSorted (db : List FocusTimeRecord) (userId : String)
    (s e : DateTime) : List FocusTimeRecord :=
  List.insertionSort recordLe (db.filter (inQuery userId s e))

/-- Grouping key of the metrics aggregation: the `$project` stage maps a
document to the array of `$year`, `$month`, `$dayOfMonth` of `timeFrom`. -/
def projectYMD (r : FocusTimeRecord) : List Nat :=
  [r.timeFrom.year, r.timeFrom.month, r.timeFrom.day]

/-- Ordering used by the aggregation's `.sort (id : 1)` stage: ascending
lexicographic order on the grouping-key arrays. -/
def keyLe (a b : List Nat) : Prop := lexLe a b = true

instance : DecidableRel keyLe := fun a b =>
  inferInstanceAs (Decidable (lexLe a b = true))

instance : IsTotal (List Nat) keyLe := ⟨lexLe_total⟩

instance : IsTrans (List Nat) keyLe := ⟨fun _ _ _ h₁ h₂ => lexLe_trans h₁ h₂⟩

/-- Embedding of the aggregation pipeline `match → project → group → sort`:
one bucket per distinct grouping key among the matched documents, carrying
the number of matched documents with that key, sorted ascending by key. -/
def aggregateCountsByDay (db : List FocusTimeRecord) (userId : String)
    (s e : DateTime) : List (List Nat × Nat) :=
  (List.insertionSort keyLe (((db.filter (inQuery userId s e)).map projectYMD).dedup)).map
    fun k => (k, ((db.filter (inQuery userId s e)).map projectYMD).count k)

/-- Body of a `store` response. -/
inductive StoreOutcome where
  | invalidBody (issues : List Issue)
  | rangeOrder (msg : String)
  | created (r : FocusTimeRecord)
deriving DecidableEq, Repr

/-- A `store` response together with the store contents after the request. -/
structure StoreResponse where
  status : Nat
  outcome : StoreOutcome
  db : List FocusTimeRecord
deriving DecidableEq, Repr

/-- Embedding of `FocusTimeController.store`. -/
def FocusTimeController.store (db : List FocusTimeRecord) (userId : String)
    (timeFromRaw timeToRaw : RawValue) : StoreResponse :=
  match parseStoreBody timeFromRaw timeToRaw with
  | .error issues => ⟨422, .invalidBody issues, db⟩
  | .ok (timeFrom, timeTo) =>
    if timeTo.isBefore timeFrom then
      ⟨400, .rangeOrder "timeFrom always has to be before timeTo", db⟩
    else
      let createdFocusTime := FocusTimeModel.create db ⟨timeFrom, timeTo, userId⟩
      ⟨201, .created createdFocusTime.2, createdFocusTime.1⟩

/-- Body of an `index` response. -/
inductive IndexOutcome where
  | invalidQuery (issues : List Issue)
  | records (rs : List FocusTimeRecord)
deriving DecidableEq, Repr

/-- An `index` response. -/
structure IndexResponse where
  status : Nat
  outcome : IndexOutcome
deriving DecidableEq, Repr

/-- Embedding of `FocusTimeController.index`. -/
def FocusTimeController.index (db : List FocusTimeRecord) (userId : String)
    (dateRaw : RawValue) : IndexResponse :=
  match coerceDate dateRaw with
  | none => ⟨422, .invalidQuery (issuesOf [("date", coerceDate dateRaw)])⟩
  | some d =>
    ⟨200, .records (FocusTimeModel.findSorted db userId (startOfDay d) (endOfDay d))⟩

/-- Body of a `metricsByMonth` response. -/
inductive MetricsOutcome where
  | invalidQuery (issues : List Issue)
  | metrics (buckets : List (List Nat × Nat))
deriving DecidableEq, Repr

/-- A `metricsByMonth` response. -/
structure MetricsResponse where
  status : Nat
  outcome : MetricsOutcome
deriving DecidableEq, Repr

/-- Embedding of `FocusTimeController.metricsByMonth`. -/
def FocusTimeController.metricsByMonth (db : List FocusTimeRecord)
    (userId : String) (dateRaw : RawValue) : MetricsResponse :=
  match coerceDate dateRaw with
  | none => ⟨422, .invalidQuery (issuesOf [("date", coerceDate dateRaw)])⟩
  | some d =>
    ⟨200, .metrics (aggregateCountsByDay db userId (startOfMonth d) (endOfMonth d))⟩

/-- The URL string the auth callback posts the authorization code to, as
written in the source (note the malformed scheme). -/
def accessTokenUrl : String := "htpps://github.com/login/oauth/access_token"

/-- The provider's user-profile endpoint fetched with the access token. -/
def userProfileUrl : String := "https://api.github.com/user"

/-- Profile fields extracted from the provider's user-profile response. -/
structure GithubProfile where
  id : String
  avatarUrl : String
  name : String
deriving DecidableEq, Repr

/-- Outcome of the external token-exchange and profile-fetch calls, as seen
by the callback's `try`/`catch`: success, a failure the HTTP client reports
(carrying `err.response?.data` when the provider answered, otherwise
nothing), or any other thrown error. -/
inductive CallbackOutcome where
  | ok (profile : GithubProfile)
  | axiosError (payload : Option String)
  | otherError
deriving DecidableEq, Repr

/-- Body of an auth-callback response. -/
inductive CallbackBody where
  | success (id avatarUrl name token : String)
  | providerError (payload : Option String)
  | generic (message : String)
deriving DecidableEq, Repr

/-- Embedding of `AuthController.authCallback`: `sign` stands for
`jwt.sign` on the profile id. -/
def AuthController.authCallback (sign : String → String) :
    CallbackOutcome → Nat × CallbackBody
  | .ok p => (200, .success p.id p.avatarUrl p.name (sign p.id))
  | .axiosError payload => (400, .providerError payload)
  | .otherError => (500, .generic "There something wrong.")

/-- Example documents for the metrics property: three records of one user in
January 2024, with `timeFrom` on days 3, 3 and 10 of the month. -/
def exampleMonthDb : List FocusTimeRecord :=
  [⟨⟨2024, 1, 3, 10, 0, 0, 0⟩, ⟨2024, 1, 3, 11, 0, 0, 0⟩, "u"⟩,
   ⟨⟨2024, 1, 3, 12, 0, 0, 0⟩, ⟨2024, 1, 3, 13, 0, 0, 0⟩, "u"⟩,
   ⟨⟨2024, 1, 10, 9, 0, 0, 0⟩, ⟨2024, 1, 10, 10, 0, 0, 0⟩, "u"⟩]

/-! Helper lemmas about the handlers. -/

theorem store_date_date (db : List FocusTimeRecord) (userId : String) (a b : DateTime) :
    FocusTimeController.store db userId (.date a) (.date b)
      = if DateTime.isBefore b a = true
          then ⟨400, .rangeOrder "timeFrom always has to be before timeTo", db⟩
          else ⟨201, .created ⟨a, b, userId⟩, db ++ [⟨a, b, userId⟩]⟩ := rfl

theorem mem_findSorted {db : List FocusTimeRecord} {userId : String}
    {s e : DateTime} {r : FocusTimeRecord} :
    r ∈ FocusTimeModel.findSorted db userId s e
      ↔ r ∈ db ∧ r.userId = userId
        ∧ dtLe s r.timeFrom = true ∧ dtLe r.timeFrom e = true := by
  simp [FocusTimeModel.findSorted, List.mem_insertionSort, List.mem_filter,
    inQuery, and_assoc]

theorem sorted_findSorted (db : List FocusTimeRecord) (userId : String)
    (s e : DateTime) :
    (FocusTimeModel.findSorted db userId s e).Pairwise
      (fun p q => dtLe p.timeFrom q.timeFrom = true) :=
  List.sorted_insertionSort recordLe _

theorem count_projected_keys (l : List FocusTimeRecord) (k : List Nat) :
    (l.map projectYMD).count k = l.countP (fun r => projectYMD r == k) := by
  rw [List.count_eq_countP, List.countP_map]
  rfl

theorem mem_aggregateCountsByDay {db : List FocusTimeRecord} {userId : String}
    {s e : DateTime} {k : List Nat} {n : Nat} :
    (k, n) ∈ aggregateCountsByDay db userId s e
      ↔ 0 < n
        ∧ (db.filter (inQuery userId s e)).countP (fun r => projectYMD r == k) = n := by
  unfold aggregateCountsByDay
  simp only [List.mem_map, List.mem_insertionSort, List.mem_dedup]
  constructor
  · rintro ⟨k', hk', heq⟩
    have hkk : k' = k := congrArg Prod.fst heq
    subst hkk
    have hn : ((db.filter (inQuery userId s e)).map projectYMD).count k' = n :=
      congrArg Prod.snd heq
    refine ⟨?_, ?_⟩
    · rw [← hn]
      exact List.count_pos_iff.mpr (List.mem_map.mpr hk')
    · rw [← count_projected_keys]
      exact hn
  · rintro ⟨hpos, hc⟩
    refine ⟨k, ?_, ?_⟩
    · refine List.mem_map.mp (List.count_pos_iff.mp ?_)
      rw [count_projected_keys, hc]
      exact hpos
    · rw [count_projected_keys, hc]

theorem pairwise_aggregateCountsByDay (db : List FocusTimeRecord)
    (userId : String) (s e : DateTime) :
    (aggregateCountsByDay db userId s e).Pairwise
      (fun p q => lexLt p.1 q.1 = true) := by
  unfold aggregateCountsByDay
  rw [List.pairwise_map]
  have hs : (List.insertionSort keyLe
      (((db.filter (inQuery userId s e)).map projectYMD).dedup)).Pairwise keyLe :=
    List.sorted_insertionSort keyLe _
  have hn : (List.insertionSort keyLe
      (((db.filter (inQuery userId s e)).map projectYMD).dedup)).Nodup :=
    (List.perm_insertionSort keyLe _).nodup_iff.mpr (List.nodup_dedup _)
  exact List.Pairwise.imp₂ (fun a b hle hne => lexLt_of_lexLe_of_ne hle hne) hs hn

/-! Theorems settling the claims. -/

/-- C1: the store operation rejects with status 400 and the message
"timeFrom always has to be before timeTo" exactly when `timeTo` is strictly
before `timeFrom`; with equal bounds the request is not rejected on range
order: it responds 201 and the record is persisted. -/
theorem store_range_rejection_iff (db : List FocusTimeRecord) (userId : String)
    (a b : DateTime) :
    ((FocusTimeController.store db userId (.date a) (.date b)).status = 400
        ∧ (FocusTimeController.store db userId (.date a) (.date b)).outcome
            = .rangeOrder "timeFrom always has to be before timeTo"
      ↔ DateTime.isBefore b a = true)
    ∧ (FocusTimeController.store db userId (.date a) (.date a)).status = 201
    ∧ (FocusTimeController.store db userId (.date a) (.date a)).db
        = db ++ [⟨a, a, userId⟩] := by
  refine ⟨?_, ?_, ?_⟩
  · rw [store_date_date]
    by_cases h : DateTime.isBefore b a = true
    · simp [h]
    · simp [h]
  · rw [store_date_date]
    simp [DateTime.isBefore, lexLt_irrefl]
  · rw [store_date_date]
    simp [DateTime.isBefore, lexLt_irrefl]

/-- C4: for every validated pair of bounds with `timeFrom` strictly before
`timeTo`, the store operation responds 201 and persists a record whose
bounds equal the input bounds exactly, owned by the authenticated caller. -/
theorem store_success_on_valid_range (db : List FocusTimeRecord)
    (userId : String) (a b : DateTime) (h : DateTime.isBefore a b = true) :
    FocusTimeController.store db userId (.date a) (.date b)
      = ⟨201, .created ⟨a, b, userId⟩, db ++ [⟨a, b, userId⟩]⟩ := by
  rw [store_date_date]
  simp [DateTime.isBefore, lexLt_asymm h]

theorem store_success_on_valid_range_witness :
    DateTime.isBefore ⟨2024, 1, 1, 9, 0, 0, 0⟩ ⟨2024, 1, 1, 10, 0, 0, 0⟩ = true
    ∧ FocusTimeController.store [] "u"
        (.date ⟨2024, 1, 1, 9, 0, 0, 0⟩) (.date ⟨2024, 1, 1, 10, 0, 0, 0⟩)
      = ⟨201, .created ⟨⟨2024, 1, 1, 9, 0, 0, 0⟩, ⟨2024, 1, 1, 10, 0, 0, 0⟩, "u"⟩,
          [⟨⟨2024, 1, 1, 9, 0, 0, 0⟩, ⟨2024, 1, 1, 10, 0, 0, 0⟩, "u"⟩]⟩ :=
  ⟨by decide, store_success_on_valid_range [] "u" _ _ (by decide)⟩

/-- C5 counterexample: with equal bounds the store operation persists the
record, so a stored record with `timeFrom` equal to `timeTo` (not strictly
before it) is reachable through the creation path. -/
theorem equal_bounds_record_persisted :
    (FocusTimeController.store [] "u"
        (.date ⟨2024, 1, 1, 10, 0, 0, 0⟩) (.date ⟨2024, 1, 1, 10, 0, 0, 0⟩)).db
      = [⟨⟨2024, 1, 1, 10, 0, 0, 0⟩, ⟨2024, 1, 1, 10, 0, 0, 0⟩, "u"⟩]
    ∧ DateTime.isBefore ⟨2024, 1, 1, 10, 0, 0, 0⟩ ⟨2024, 1, 1, 10, 0, 0, 0⟩ = false := by
  decide

/-- C5 as amended: every record the store operation persists satisfies
`timeFrom` less than or equal to `timeTo` — `timeTo` is never strictly
before `timeFrom`, though equal bounds are reachable. -/
theorem stored_record_bounds_ordered (db : List FocusTimeRecord)
    (userId : String) (fRaw tRaw : RawValue) (r : FocusTimeRecord)
    (h : r ∈ (FocusTimeController.store db userId fRaw tRaw).db) :
    r ∈ db ∨ DateTime.isBefore r.timeTo r.timeFrom = false := by
  cases fRaw with
  | malformed s => cases tRaw <;> exact Or.inl h
  | date a =>
    cases tRaw with
    | malformed s => exact Or.inl h
    | date b =>
      rw [store_date_date] at h
      by_cases hba : DateTime.isBefore b a = true
      · rw [if_pos hba] at h
        exact Or.inl h
      · rw [if_neg hba] at h
        rw [Bool.not_eq_true] at hba
        rcases List.mem_append.mp h with h' | h'
        · exact Or.inl h'
        · have hr : r = ⟨a, b, userId⟩ := by simpa using h'
          subst hr
          exact Or.inr hba

theorem stored_record_bounds_ordered_witness :
    (⟨⟨2024, 1, 1, 8, 0, 0, 0⟩, ⟨2024, 1, 1, 8, 0, 0, 0⟩, "u"⟩ : FocusTimeRecord)
        ∈ (FocusTimeController.store [] "u"
            (.date ⟨2024, 1, 1, 8, 0, 0, 0⟩) (.date ⟨2024, 1, 1, 8, 0, 0, 0⟩)).db
    ∧ ((⟨⟨2024, 1, 1, 8, 0, 0, 0⟩, ⟨2024, 1, 1, 8, 0, 0, 0⟩, "u"⟩ : FocusTimeRecord)
          ∈ ([] : List FocusTimeRecord)
        ∨ DateTime.isBefore ⟨2024, 1, 1, 8, 0, 0, 0⟩ ⟨2024, 1, 1, 8, 0, 0, 0⟩ = false) :=
  ⟨by decide,
    stored_record_bounds_ordered [] "u"
      (.date ⟨2024, 1, 1, 8, 0, 0, 0⟩) (.date ⟨2024, 1, 1, 8, 0, 0, 0⟩)
      ⟨⟨2024, 1, 1, 8, 0, 0, 0⟩, ⟨2024, 1, 1, 8, 0, 0, 0⟩, "u"⟩ (by decide)⟩

/-- C9: whenever the store operation responds 422 or 400, the record store
is left unchanged — the create call is never reached on a failed request. -/
theorem store_failure_preserves_db (db : List FocusTimeRecord)
    (userId : String) (fRaw tRaw : RawValue)
    (h : (FocusTimeController.store db userId fRaw tRaw).status = 422
        ∨ (FocusTimeController.store db userId fRaw tRaw).status = 400) :
    (FocusTimeController.store db userId fRaw tRaw).db = db := by
  cases fRaw with
  | malformed s => cases tRaw <;> rfl
  | date a =>
    cases tRaw with
    | malformed s => rfl
    | date b =>
      rw [store_date_date] at h ⊢
      by_cases hba : DateTime.isBefore b a = true
      · rw [if_pos hba]
      · rw [if_neg hba] at h
        simp at h

theorem store_failure_preserves_db_witness :
    ((FocusTimeController.store [] "u" (.malformed "nope") (.malformed "nah")).status = 422
      ∨ (FocusTimeController.store [] "u" (.malformed "nope") (.malformed "nah")).status = 400)
    ∧ (FocusTimeController.store [] "u" (.malformed "nope") (.malformed "nah")).db = [] :=
  ⟨Or.inl (by decide),
    store_failure_preserves_db [] "u" _ _ (Or.inl (by decide))⟩

/-- C3: the list operation returns exactly the records owned by the caller
whose `timeFrom` lies in the inclusive window from 00:00:00.000 through
23:59:59.999 of the calendar day containing the queried date, sorted
ascending by `timeFrom`; both window bounds fall on that calendar day. -/
theorem index_day_window_spec (db : List FocusTimeRecord) (userId : String)
    (d : DateTime) :
    (FocusTimeController.index db userId (.date d)).status = 200
    ∧ (FocusTimeController.index db userId (.date d)).outcome
        = .records (FocusTimeModel.findSorted db userId (startOfDay d) (endOfDay d))
    ∧ (∀ r, r ∈ FocusTimeModel.findSorted db userId (startOfDay d) (endOfDay d)
        ↔ r ∈ db ∧ r.userId = userId
          ∧ dtLe (startOfDay d) r.timeFrom = true
          ∧ dtLe r.timeFrom (endOfDay d) = true)
    ∧ (FocusTimeModel.findSorted db userId (startOfDay d) (endOfDay d)).Pairwise
        (fun p q => dtLe p.timeFrom q.timeFrom = true)
    ∧ startOfDay d = ⟨d.year, d.month, d.day, 0, 0, 0, 0⟩
    ∧ endOfDay d = ⟨d.year, d.month, d.day, 23, 59, 59, 999⟩ :=
  ⟨rfl, rfl, fun _ => mem_findSorted, sorted_findSorted db userId _ _, rfl, rfl⟩

/-- C2: the monthly metrics operation responds 200 with one bucket per
distinct year-month-day key of the `timeFrom` of the caller's records in the
month window, each carrying the count of such records, days without records
omitted, sorted strictly ascending by key; in particular a month with
records on days 3, 3 and 10 yields day 3 with count 2 then day 10 with
count 1. -/
theorem metricsByMonth_buckets_spec (db : List FocusTimeRecord)
    (userId : String) (d : DateTime) :
    (FocusTimeController.metricsByMonth db userId (.date d)).status = 200
    ∧ (FocusTimeController.metricsByMonth db userId (.date d)).outcome
        = .metrics (aggregateCountsByDay db userId (startOfMonth d) (endOfMonth d))
    ∧ (∀ k n, (k, n) ∈ aggregateCountsByDay db userId (startOfMonth d) (endOfMonth d)
        ↔ 0 < n
          ∧ (db.filter (inQuery userId (startOfMonth d) (endOfMonth d))).countP
              (fun r => projectYMD r == k) = n)
    ∧ (aggregateCountsByDay db userId (startOfMonth d) (endOfMonth d)).Pairwise
        (fun p q => lexLt p.1 q.1 = true)
    ∧ FocusTimeController.metricsByMonth exampleMonthDb "u" (.date ⟨2024, 1, 15, 0, 0, 0, 0⟩)
        = ⟨200, .metrics [([2024, 1, 3], 2), ([2024, 1, 10], 1)]⟩ :=
  ⟨rfl, rfl, fun _ _ => mem_aggregateCountsByDay,
    pairwise_aggregateCountsByDay db userId _ _, by decide⟩

/-- C6: a request whose body or date query fails schema validation is
answered 422 with the ordered list of field issues, at least one naming the
offending field; well-typed input never produces a 422. -/
theorem validation_error_responses (db : List FocusTimeRecord)
    (userId : String) (s : String) (a b d : DateTime) :
    ((FocusTimeController.store db userId (.malformed s) (.date b)).status = 422
      ∧ (FocusTimeController.store db userId (.malformed s) (.date b)).outcome
          = .invalidBody [⟨"timeFrom", "Invalid date"⟩])
    ∧ ((FocusTimeController.store db userId (.date a) (.malformed s)).status = 422
      ∧ (FocusTimeController.store db userId (.date a) (.malformed s)).outcome
          = .invalidBody [⟨"timeTo", "Invalid date"⟩])
    ∧ (FocusTimeController.store db userId (.malformed s) (.malformed s)).outcome
        = .invalidBody [⟨"timeFrom", "Invalid date"⟩, ⟨"timeTo", "Invalid date"⟩]
    ∧ ((FocusTimeController.index db userId (.malformed s)).status = 422
      ∧ (FocusTimeController.index db userId (.malformed s)).outcome
          = .invalidQuery [⟨"date", "Invalid date"⟩])
    ∧ ((FocusTimeController.metricsByMonth db userId (.malformed s)).status = 422
      ∧ (FocusTimeController.metricsByMonth db userId (.malformed s)).outcome
          = .invalidQuery [⟨"date", "Invalid date"⟩])
    ∧ (FocusTimeController.store db userId (.date a) (.date b)).status ≠ 422
    ∧ (FocusTimeController.index db userId (.date d)).status = 200
    ∧ (FocusTimeController.metricsByMonth db userId (.date d)).status = 200 := by
  refine ⟨⟨rfl, rfl⟩, ⟨rfl, rfl⟩, rfl, ⟨rfl, rfl⟩, ⟨rfl, rfl⟩, ?_, rfl, rfl⟩
  rw [store_date_date]
  by_cases hba : DateTime.isBefore b a = true
  · rw [if_pos hba]
    show (400 : Nat) ≠ 422
    decide
  · rw [if_neg hba]
    show (201 : Nat) ≠ 422
    decide

/-- C7: the auth callback's token-exchange URL as written in the source has
the malformed scheme `htpps` and is not a well-formed `https` URL, while the
profile fetch goes to an `https` URL — the claim holds of the intent and the
code contradicts it. -/
theorem access_token_url_scheme_typo :
    accessTokenUrl = "htpps://github.com/login/oauth/access_token"
    ∧ accessTokenUrl.data.take 8 ≠ "https://".data
    ∧ accessTokenUrl.data.take 8 = "htpps://".data
    ∧ userProfileUrl.data.take 8 = "https://".data := by
  refine ⟨rfl, ?_, ?_, ?_⟩ <;> decide

/-- C8 counterexample: a token-exchange failure reported by the HTTP client
without any provider payload is answered 400 (with an empty body), not 500
as the claim states for failures carrying no provider-reported error. -/
theorem axios_error_without_payload_status :
    (AuthController.authCallback (fun s => s) (.axiosError none)).1 = 400
    ∧ (AuthController.authCallback (fun s => s) (.axiosError none)).1 ≠ 500 :=
  ⟨rfl, by decide⟩

/-- C8 as amended: every failure the HTTP client reports — with or without a
provider payload — yields 400 with `err.response?.data` as body, every other
failure yields 500 with the generic message, and no other status than 200,
400 or 500 is produced. -/
theorem authCallback_error_mapping (sign : String → String) (o : CallbackOutcome) :
    (∀ payload, o = .axiosError payload →
        AuthController.authCallback sign o = (400, .providerError payload))
    ∧ (o = .otherError →
        AuthController.authCallback sign o = (500, .generic "There something wrong."))
    ∧ (∀ p, o = .ok p →
        AuthController.authCallback sign o
          = (200, .success p.id p.avatarUrl p.name (sign p.id)))
    ∧ ((AuthController.authCallback sign o).1 = 200
        ∨ (AuthController.authCallback sign o).1 = 400
        ∨ (AuthController.authCallback sign o).1 = 500) := by
  refine ⟨?_, ?_, ?_, ?_⟩
  · rintro payload rfl
    rfl
  · rintro rfl
    rfl
  · rintro p rfl
    rfl
  · cases o with
    | ok p => exact Or.inl rfl
    | axiosError payload => exact Or.inr (Or.inl rfl)
    | otherError => exact Or.inr (Or.inr rfl)

/-- C10: the query windows depend only on the calendar components they
truncate to — two dates of the same calendar day give the list operation
identical day windows and identical responses, and two dates of the same
calendar month give the metrics operation identical month windows and
identical responses. -/
theorem windows_ignore_subunit_components (a b : DateTime) :
    (a.year = b.year → a.month = b.month → a.day = b.day →
      startOfDay a = startOfDay b ∧ endOfDay a = endOfDay b
      ∧ ∀ db userId, FocusTimeController.index db userId (.date a)
          = FocusTimeController.index db userId (.date b))
    ∧ (a.year = b.year → a.month = b.month →
      startOfMonth a = startOfMonth b ∧ endOfMonth a = endOfMonth b
      ∧ ∀ db userId, FocusTimeController.metricsByMonth db userId (.date a)
          = FocusTimeController.metricsByMonth db userId (.date b)) := by
  constructor
  · intro hy hm hd
    have hs : startOfDay a = startOfDay b := by
      simp only [startOfDay, hy, hm, hd]
    have he : endOfDay a = endOfDay b := by
      simp only [endOfDay, hy, hm, hd]
    refine ⟨hs, he, fun db userId => ?_⟩
    show (⟨200, .records (FocusTimeModel.findSorted db userId (startOfDay a) (endOfDay a))⟩
        : IndexResponse)
      = FocusTimeController.index db userId (.date b)
    rw [hs, he]
    rfl
  · intro hy hm
    have hs : startOfMonth a = startOfMonth b := by
      simp only [startOfMonth, hy, hm]
    have he : endOfMonth a = endOfMonth b := by
      simp only [endOfMonth, hy, hm]
    refine ⟨hs, he, fun db userId => ?_⟩
    show (⟨200, .metrics (aggregateCountsByDay db userId (startOfMonth a) (endOfMonth a))⟩
        : MetricsResponse)
      = FocusTimeController.metricsByMonth db userId (.date b)
    rw [hs, he]
    rfl

end EliteTracker
